import Mathlib

/-
Verification development for the telecom reliability ingestion pipeline
(`01_data_ingestion.py`).  The pipeline is a Delta Live Tables notebook:
bronze CDR/PCMD streams are joined with a static tower directory (silver
layer, with data-quality expectations), then aggregated per tower on
1-minute event-time windows (gold layer), and the CDR minute aggregates
are rolled up to 1-hour and 1-day granularity by summing their counters.

Timestamps are modelled as natural numbers of seconds since the epoch;
nullable columns are modelled as `Option`; float columns as `ℚ`.
-/

namespace TelecomDb

/-- A record of the static tower directory (`static_tower_data` view):
identifier plus location metadata. -/
structure Tower where
  GlobalID : String
  City : String
  County : String
  State : String
  Longitude : ℚ
  Latitude : ℚ
deriving DecidableEq

/-- A raw CDR event as read by the bronze stream.  `towerId`, `type` and
`status` are nullable JSON fields. -/
structure CdrRaw where
  towerId : Option String
  type : Option String
  status : Option String
  event_ts : ℕ
deriving DecidableEq

/-- A raw PCMD event as read by the bronze stream.  `towerId` and
`ProcedureId` are nullable JSON fields. -/
structure PcmdRaw where
  towerId : Option String
  ProcedureId : Option String
  ProcedureDuration : ℚ
  event_ts : ℕ
deriving DecidableEq

/-- The CDR quality gate declared on `cdr_stream_silver`:
`expect_or_drop("towerId", "towerId IS NOT NULL")` and
`expect_or_drop("type", "type IS NOT NULL")`.  A record violating either
expectation is dropped; otherwise it is kept unchanged. -/
def cdrNormalize (e : CdrRaw) : Option CdrRaw :=
  if e.towerId = none ∨ e.type = none then none else some e

/-- The PCMD quality gate declared on `pcmd_stream_silver`:
`expect_or_drop` on `towerId` and `ProcedureId` (hard drop), and a plain
`expect("ProcedureDuration", "ProcedureDuration > 0")` which only tags the
record.  The returned flag is `true` when the record violates the
tag-only expectation (`ProcedureDuration ≤ 0`). -/
def pcmdNormalize (e : PcmdRaw) : Option (PcmdRaw × Bool) :=
  if e.towerId = none ∨ e.ProcedureId = none then none
  else some (e, decide (e.ProcedureDuration ≤ 0))

/-- Towers matching a (nullable) `towerId` under the stream-static join
condition `df.towerId == df_towers.GlobalID`.  A null `towerId` matches no
tower, as in SQL equality. -/
def towerMatches (towers : List Tower) (tid : Option String) : List Tower :=
  towers.filter (fun t => decide (tid = some t.GlobalID))

/-- The silver CDR table: the bronze stream inner-joined with the static
tower directory on `towerId == GlobalID`, with the two `expect_or_drop`
expectations (`towerId IS NOT NULL`, `type IS NOT NULL`) applied to the
result.  Each output row carries the raw event plus its matched tower. -/
def cdr_stream_silver (towers : List Tower) (evs : List CdrRaw) :
    List (CdrRaw × Tower) :=
  (evs.flatMap (fun e => (towerMatches towers e.towerId).map (fun t => (e, t)))).filter
    (fun r => r.1.towerId.isSome && r.1.type.isSome)

/-- The silver PCMD table: the bronze stream inner-joined with the static
tower directory on `towerId == GlobalID`, with the two `expect_or_drop`
expectations (`towerId IS NOT NULL`, `ProcedureId IS NOT NULL`) applied.
The tag-only `ProcedureDuration > 0` expectation drops nothing. -/
def pcmd_stream_silver (towers : List Tower) (evs : List PcmdRaw) :
    List (PcmdRaw × Tower) :=
  (evs.flatMap (fun e => (towerMatches towers e.towerId).map (fun t => (e, t)))).filter
    (fun r => r.1.towerId.isSome && r.1.ProcedureId.isSome)

/-- Start of the 1-minute event-time window containing second `t`
(`F.window("event_ts", "1 minute")`). -/
def windowStartMin (t : ℕ) : ℕ := (t / 60) * 60

/-- Start of the 1-hour window containing second `t`
(`F.window("date", "1 hour")`). -/
def windowStartHour (t : ℕ) : ℕ := (t / 3600) * 3600

/-- Start of the 1-day window containing second `t`
(`F.window("date", "1 day")`). -/
def windowStartDay (t : ℕ) : ℕ := (t / 86400) * 86400

/-- One output row of `cdr_stream_minute_gold`: per (1-minute window,
tower) counters plus first-seen location columns.  `date` is the window
start (`F.first("window.start")`). -/
structure CdrMinuteRow where
  date : ℕ
  towerId : String
  answered : ℕ
  dropped : ℕ
  missed : ℕ
  call : ℕ
  text : ℕ
  totalRecords_CDR : ℕ
  Latitude : ℚ
  Longitude : ℚ
  City : String
  County : String
  State : String
deriving DecidableEq

/-- Grouping keys `(towerId, window.start)` of the silver CDR rows, in
first-occurrence order.  On silver rows `towerId` is never null, so the
`getD` default is never used. -/
def cdrKeys (silver : List (CdrRaw × Tower)) : List (String × ℕ) :=
  (silver.map (fun r => (r.1.towerId.getD "", windowStartMin r.1.event_ts))).dedup

/-- The silver CDR rows falling in the group of key `k`. -/
def cdrBucket (silver : List (CdrRaw × Tower)) (k : String × ℕ) :
    List (CdrRaw × Tower) :=
  silver.filter
    (fun r => decide (r.1.towerId.getD "" = k.1 ∧ windowStartMin r.1.event_ts = k.2))

/-- `F.count(F.when(F.col("status") == s, True))`: the number of rows of
the group whose `status` equals `s` (a null `status` matches nothing and
is not counted). -/
def countStatus (b : List (CdrRaw × Tower)) (s : String) : ℕ :=
  (b.filter (fun r => decide (r.1.status = some s))).length

/-- `F.count(F.when(F.col("type") == ty, True))`: the number of rows of
the group whose `type` equals `ty`. -/
def countType (b : List (CdrRaw × Tower)) (ty : String) : ℕ :=
  (b.filter (fun r => decide (r.1.type = some ty))).length

/-- The aggregation of one (window, tower) group of
`cdr_stream_minute_gold`: status and type counters, total record count,
and first-seen (`F.first`) location columns. -/
def cdrMinuteAgg (k : String × ℕ) (b : List (CdrRaw × Tower)) : CdrMinuteRow :=
  { date := k.2
    towerId := k.1
    answered := countStatus b "answered"
    dropped := countStatus b "dropped"
    missed := countStatus b "missed"
    call := countType b "call"
    text := countType b "text"
    totalRecords_CDR := b.length
    Latitude := (b.head?.map (fun r => r.2.Latitude)).getD 0
    Longitude := (b.head?.map (fun r => r.2.Longitude)).getD 0
    City := (b.head?.map (fun r => r.2.City)).getD ""
    County := (b.head?.map (fun r => r.2.County)).getD ""
    State := (b.head?.map (fun r => r.2.State)).getD "" }

/-- The gold minute-level CDR table: silver rows grouped by
`(window("event_ts", "1 minute"), towerId)` and aggregated with
`cdrMinuteAgg`. -/
def cdr_stream_minute_gold (towers : List Tower) (evs : List CdrRaw) :
    List CdrMinuteRow :=
  let silver := cdr_stream_silver towers evs
  (cdrKeys silver).map (fun k => cdrMinuteAgg k (cdrBucket silver k))

/-- One output row of `cdr_stream_hour_gold` / `cdr_stream_day_gold`:
summed counters plus first-seen location columns; `datetime` is the
coarser window start. -/
structure CdrRollupRow where
  datetime : ℕ
  towerId : String
  dropped : ℕ
  answered : ℕ
  missed : ℕ
  text : ℕ
  call : ℕ
  totalRecords_CDR : ℕ
  City : String
  County : String
  State : String
  Latitude : ℚ
  Longitude : ℚ
deriving DecidableEq

/-- Grouping keys `(towerId, fl date)` of minute rows under window floor
`fl`, in first-occurrence order. -/
def rollupKeys (fl : ℕ → ℕ) (rows : List CdrMinuteRow) : List (String × ℕ) :=
  (rows.map (fun r => (r.towerId, fl r.date))).dedup

/-- The minute rows falling in the rollup group of key `k`. -/
def rollupBucket (fl : ℕ → ℕ) (rows : List CdrMinuteRow) (k : String × ℕ) :
    List CdrMinuteRow :=
  rows.filter (fun r => decide (r.towerId = k.1 ∧ fl r.date = k.2))

/-- The aggregation of one rollup group: `F.sum` of each counter and
`F.first` of each location column. -/
def cdrRollupAgg (k : String × ℕ) (b : List CdrMinuteRow) : CdrRollupRow :=
  { datetime := k.2
    towerId := k.1
    dropped := (b.map (fun r => r.dropped)).sum
    answered := (b.map (fun r => r.answered)).sum
    missed := (b.map (fun r => r.missed)).sum
    text := (b.map (fun r => r.text)).sum
    call := (b.map (fun r => r.call)).sum
    totalRecords_CDR := (b.map (fun r => r.totalRecords_CDR)).sum
    City := (b.head?.map (fun r => r.City)).getD ""
    County := (b.head?.map (fun r => r.County)).getD ""
    State := (b.head?.map (fun r => r.State)).getD ""
    Latitude := (b.head?.map (fun r => r.Latitude)).getD 0
    Longitude := (b.head?.map (fun r => r.Longitude)).getD 0 }

/-- The gold hour-level CDR table: minute rows grouped by
`(window("date", "1 hour"), towerId)`, counters summed. -/
def cdr_stream_hour_gold (rows : List CdrMinuteRow) : List CdrRollupRow :=
  (rollupKeys windowStartHour rows).map
    (fun k => cdrRollupAgg k (rollupBucket windowStartHour rows k))

/-- The gold day-level CDR table: minute rows grouped by
`(window("date", "1 day"), towerId)`, counters summed. -/
def cdr_stream_day_gold (rows : List CdrMinuteRow) : List CdrRollupRow :=
  (rollupKeys windowStartDay rows).map
    (fun k => cdrRollupAgg k (rollupBucket windowStartDay rows k))

/-- One output row of `pcmd_stream_minute_gold`: per (1-minute window,
tower) avg/max/min of `ProcedureDuration` for each tracked procedure id
("11", "15", "16"), the total record count, and first-seen location
columns.  An avg/max/min column is null when no row of the group has the
corresponding procedure id. -/
structure PcmdMinuteRow where
  date : ℕ
  towerId : String
  avg_dur_request_to_release_bearer : Option ℚ
  avg_dur_notification_data_sent_to_UE : Option ℚ
  avg_dur_request_to_setup_bearer : Option ℚ
  max_dur_request_to_release_bearer : Option ℚ
  max_dur_notification_data_sent_to_UE : Option ℚ
  max_dur_request_to_setup_bearer : Option ℚ
  min_dur_request_to_release_bearer : Option ℚ
  min_dur_notification_data_sent_to_UE : Option ℚ
  min_dur_request_to_setup_bearer : Option ℚ
  totalRecords_PCMD : ℕ
  Latitude : ℚ
  Longitude : ℚ
  City : String
  County : String
  State : String
deriving DecidableEq

/-- Grouping keys `(towerId, window.start)` of the silver PCMD rows. -/
def pcmdKeys (silver : List (PcmdRaw × Tower)) : List (String × ℕ) :=
  (silver.map (fun r => (r.1.towerId.getD "", windowStartMin r.1.event_ts))).dedup

/-- The silver PCMD rows falling in the group of key `k`. -/
def pcmdBucket (silver : List (PcmdRaw × Tower)) (k : String × ℕ) :
    List (PcmdRaw × Tower) :=
  silver.filter
    (fun r => decide (r.1.towerId.getD "" = k.1 ∧ windowStartMin r.1.event_ts = k.2))

/-- The durations entering avg/max/min for procedure id `p`:
`F.when(F.col("ProcedureId") == p, F.col("ProcedureDuration"))` is null on
non-matching rows and Spark aggregates ignore nulls. -/
def procDurations (b : List (PcmdRaw × Tower)) (p : String) : List ℚ :=
  b.filterMap
    (fun r => if r.1.ProcedureId = some p then some r.1.ProcedureDuration else none)

/-- `F.avg` over the non-null values: null on an all-null group. -/
def listAvg (l : List ℚ) : Option ℚ :=
  if l = [] then none else some (l.sum / l.length)

/-- `F.max` over the non-null values: null on an all-null group. -/
def listMax (l : List ℚ) : Option ℚ :=
  l.foldr (fun d acc => match acc with | none => some d | some m => some (max d m)) none

/-- `F.min` over the non-null values: null on an all-null group. -/
def listMin (l : List ℚ) : Option ℚ :=
  l.foldr (fun d acc => match acc with | none => some d | some m => some (min d m)) none

/-- The aggregation of one (window, tower) group of
`pcmd_stream_minute_gold`. -/
def pcmdMinuteAgg (k : String × ℕ) (b : List (PcmdRaw × Tower)) : PcmdMinuteRow :=
  { date := k.2
    towerId := k.1
    avg_dur_request_to_release_bearer := listAvg (procDurations b "11")
    avg_dur_notification_data_sent_to_UE := listAvg (procDurations b "15")
    avg_dur_request_to_setup_bearer := listAvg (procDurations b "16")
    max_dur_request_to_release_bearer := listMax (procDurations b "11")
    max_dur_notification_data_sent_to_UE := listMax (procDurations b "15")
    max_dur_request_to_setup_bearer := listMax (procDurations b "16")
    min_dur_request_to_release_bearer := listMin (procDurations b "11")
    min_dur_notification_data_sent_to_UE := listMin (procDurations b "15")
    min_dur_request_to_setup_bearer := listMin (procDurations b "16")
    totalRecords_PCMD := b.length
    Latitude := (b.head?.map (fun r => r.2.Latitude)).getD 0
    Longitude := (b.head?.map (fun r => r.2.Longitude)).getD 0
    City := (b.head?.map (fun r => r.2.City)).getD ""
    County := (b.head?.map (fun r => r.2.County)).getD ""
    State := (b.head?.map (fun r => r.2.State)).getD "" }

/-- The gold minute-level PCMD table: silver rows grouped by
`(window("event_ts", "1 minute"), towerId)` and aggregated with
`pcmdMinuteAgg`. -/
def pcmd_stream_minute_gold (towers : List Tower) (evs : List PcmdRaw) :
    List PcmdMinuteRow :=
  let silver := pcmd_stream_silver towers evs
  (pcmdKeys silver).map (fun k => pcmdMinuteAgg k (pcmdBucket silver k))

/-- The additive counter part of a CDR aggregate, the fields summed by the
rollup combine of `cdr_stream_hour_gold` / `cdr_stream_day_gold`. -/
structure CdrCounts where
  dropped : ℕ
  answered : ℕ
  missed : ℕ
  text : ℕ
  call : ℕ
  totalRecords_CDR : ℕ
deriving DecidableEq

/-- The rollup combine function on CDR counters, as performed by the
`F.sum` aggregations of `cdr_stream_hour_gold` / `cdr_stream_day_gold`:
each counter of the children is summed. -/
def combineCdr (l : List CdrCounts) : CdrCounts :=
  { dropped := (l.map (fun c => c.dropped)).sum
    answered := (l.map (fun c => c.answered)).sum
    missed := (l.map (fun c => c.missed)).sum
    text := (l.map (fun c => c.text)).sum
    call := (l.map (fun c => c.call)).sum
    totalRecords_CDR := (l.map (fun c => c.totalRecords_CDR)).sum }

/-- Per-procedure statistics carried by a PCMD aggregate bucket:
average, contributing-record count, max and min of the duration. -/
@[ext]
structure ProcStats where
  avg : Option ℚ
  count : ℕ
  max : Option ℚ
  min : Option ℚ
deriving DecidableEq

/-- Max of two nullable values, null only when both are null. -/
def optMax (a b : Option ℚ) : Option ℚ :=
  match a, b with
  | none, b => b
  | some x, none => some x
  | some x, some y => some (max x y)

/-- Min of two nullable values, null only when both are null. -/
def optMin (a b : Option ℚ) : Option ℚ :=
  match a, b with
  | none, b => b
  | some x, none => some x
  | some x, some y => some (min x y)

/-- The per-procedure statistics computed directly from the underlying
duration values, exactly as `pcmdMinuteAgg` computes them for one
procedure id. -/
def procStatsOf (ds : List ℚ) : ProcStats :=
  { avg := listAvg ds
    count := ds.length
    max := listMax ds
    min := listMin ds }

/-- Modelled from the spec: the PCMD rollup combine (the repository ships
only the CDR hour/day rollups; the spec's Rollup Engine prescribes the
PCMD one).  The average is re-derived from an accumulated `(sum, count)`
pair — each child contributes `avg * count`, and the division happens once
at combine time — and max/min combine elementwise across the children. -/
def combinePcmdProc (children : List ProcStats) : ProcStats :=
  let c : ℕ := (children.map (fun s => s.count)).sum
  { avg :=
      if c = 0 then none
      else some ((children.map (fun s => s.avg.getD 0 * (s.count : ℚ))).sum / (c : ℚ))
    count := c
    max := children.foldr (fun s acc => optMax s.max acc) none
    min := children.foldr (fun s acc => optMin s.min acc) none }

/-- Modelled from the spec: rollup of per-procedure PCMD buckets keyed by
`(towerId, windowStart)` to the coarser granularity given by the window
floor `fl` (`windowStartHour` for the hour level, `windowStartDay` for the
day level), combining each group with `combinePcmdProc`. -/
def pcmdRollup (fl : ℕ → ℕ) (buckets : List (String × ℕ × ProcStats)) :
    List (String × ℕ × ProcStats) :=
  ((buckets.map (fun b => (b.1, fl b.2.1))).dedup).map
    (fun k => (k.1, k.2,
      combinePcmdProc
        ((buckets.filter (fun b => decide (b.1 = k.1 ∧ fl b.2.1 = k.2))).map
          (fun b => b.2.2))))

/-- Configuration of the modelled watermark policy: window duration and
allowed lateness, in seconds (defaults per spec: 60 and 60). -/
structure WmConfig where
  windowDuration : ℕ
  allowedLateness : ℕ

/-- An event as seen by the modelled window aggregator: its key column
and its event time. -/
structure WmEvent where
  towerId : String
  event_ts : ℕ
deriving DecidableEq

/-- Start of the window of duration `cfg.windowDuration` containing
second `t`. -/
def wmWindowStart (cfg : WmConfig) (t : ℕ) : ℕ :=
  (t / cfg.windowDuration) * cfg.windowDuration

/-- A bucket of the modelled aggregator: key `(towerId, windowStart)`
plus the count of merged events. -/
structure WmBucket where
  towerId : String
  windowStart : ℕ
  count : ℕ
deriving DecidableEq

/-- State of the modelled window aggregator: the monotonic event-time
watermark, the open and the sealed buckets, and the LateArrival rejection
metric. -/
structure WmState where
  watermark : ℕ
  openB : List WmBucket
  sealedB : List WmBucket
  late : ℕ
deriving DecidableEq

/-- Modelled from the spec: a window is sealed once event time has
advanced past `windowStart + windowDuration + allowedLateness`. -/
def wmSealed (cfg : WmConfig) (wm ws : ℕ) : Bool :=
  decide (ws + cfg.windowDuration + cfg.allowedLateness < wm)

/-- Merge one event into the open buckets: increment the bucket of its
key, or open a fresh bucket with count 1. -/
def wmMerge : List WmBucket → String → ℕ → List WmBucket
  | [], tid, ws => [⟨tid, ws, 1⟩]
  | b :: rest, tid, ws =>
      if b.towerId = tid ∧ b.windowStart = ws then
        ⟨b.towerId, b.windowStart, b.count + 1⟩ :: rest
      else b :: wmMerge rest tid ws

/-- Modelled from the spec: the per-event step of the window aggregator
under the watermark policy.  An event whose window is already sealed is
dropped and counted in the LateArrival metric; otherwise it is merged
into its `(towerId, floor(event_ts))` bucket, the watermark advances to
the max event time seen, and every open window the new watermark has
passed is sealed and emitted. -/
def wmStep (cfg : WmConfig) (s : WmState) (e : WmEvent) : WmState :=
  let ws := wmWindowStart cfg e.event_ts
  if wmSealed cfg s.watermark ws then
    { s with late := s.late + 1 }
  else
    let wm := max s.watermark e.event_ts
    let merged := wmMerge s.openB e.towerId ws
    { watermark := wm
      openB := merged.filter (fun b => !(wmSealed cfg wm b.windowStart))
      sealedB := s.sealedB ++ merged.filter (fun b => wmSealed cfg wm b.windowStart)
      late := s.late }

/-- The initial aggregator state: nothing seen, nothing open or sealed. -/
def wmInit : WmState := ⟨0, [], [], 0⟩

/-- Modelled from the spec: run the window aggregator over a finite event
sequence and then shut down cleanly, sealing and flushing every window
still open (shutdown is an implicit watermark advance to infinity). -/
def wmRun (cfg : WmConfig) (evs : List WmEvent) : WmState :=
  let s := evs.foldl (wmStep cfg) wmInit
  { watermark := s.watermark
    openB := []
    sealedB := s.sealedB ++ s.openB
    late := s.late }

/-- Total number of event contributions held in a state's buckets. -/
def wmCount (s : WmState) : ℕ :=
  ((s.openB ++ s.sealedB).map (fun b => b.count)).sum

/-- The key of a bucket. -/
def wmKey (b : WmBucket) : String × ℕ := (b.towerId, b.windowStart)

/-- Invariant of the modelled aggregator: bucket keys are unique across
the open and sealed buckets, and every sealed bucket's window really is
past the watermark's sealing boundary. -/
def wmInv (cfg : WmConfig) (s : WmState) : Prop :=
  ((s.openB ++ s.sealedB).map wmKey).Nodup ∧
  ∀ b ∈ s.sealedB, wmSealed cfg s.watermark b.windowStart = true

/-- The tower of Scenario A: `T1`, city `"X"`, at `(lat 40, lon -75)`. -/
def towerT1 : Tower := ⟨"T1", "X", "CountyA", "PA", -75, 40⟩

/-- The two CDR events of Scenario A: tower `T1` at `10:00:15`
(status `dropped`) and `10:00:45` (status `answered`), both calls. -/
def scenarioA_events : List CdrRaw :=
  [⟨some "T1", some "call", some "dropped", 36015⟩,
   ⟨some "T1", some "call", some "answered", 36045⟩]

/-- The expected Scenario A minute bucket `[10:00:00, 10:01:00)` for
`T1`: dropped 1, answered 1, missed 0, total 2, city `"X"`. -/
def scenarioA_row : CdrMinuteRow :=
  { date := 36000, towerId := "T1", answered := 1, dropped := 1, missed := 0,
    call := 2, text := 0, totalRecords_CDR := 2, Latitude := 40, Longitude := -75,
    City := "X", County := "CountyA", State := "PA" }

/-- A Scenario B minute bucket for `T1` with `total = 10`, at window
start `ws`. -/
def scenarioB_row (ws : ℕ) : CdrMinuteRow :=
  { date := ws, towerId := "T1", answered := 5, dropped := 2, missed := 3,
    call := 6, text := 4, totalRecords_CDR := 10, Latitude := 40, Longitude := -75,
    City := "X", County := "CountyA", State := "PA" }

/-- The four Scenario B minute buckets, all inside hour `[36000, 39600)`. -/
def scenarioB_rows : List CdrMinuteRow :=
  [scenarioB_row 36000, scenarioB_row 36060, scenarioB_row 36120, scenarioB_row 36180]

lemma mem_cdr_silver {towers : List Tower} {evs : List CdrRaw} {r : CdrRaw × Tower} :
    r ∈ cdr_stream_silver towers evs ↔
      r.1 ∈ evs ∧ r.2 ∈ towers ∧ r.1.towerId = some r.2.GlobalID ∧ r.1.type.isSome := by
  obtain ⟨e, t⟩ := r
  simp only [cdr_stream_silver, List.mem_filter, List.mem_flatMap, List.mem_map,
    towerMatches, Bool.and_eq_true, decide_eq_true_eq, Prod.mk.injEq]
  constructor
  · rintro ⟨⟨e', he', t', ⟨ht', hj⟩, he, ht⟩, hts, hty⟩
    subst he; subst ht
    exact ⟨he', ht', hj, hty⟩
  · rintro ⟨he, ht, hj, hty⟩
    exact ⟨⟨e, he, t, ⟨ht, hj⟩, rfl, rfl⟩, by simp [hj], hty⟩

lemma cdr_silver_towerId_isSome {towers : List Tower} {evs : List CdrRaw}
    {r : CdrRaw × Tower} (h : r ∈ cdr_stream_silver towers evs) :
    r.1.towerId.isSome := by
  rcases mem_cdr_silver.mp h with ⟨-, -, hj, -⟩
  simp [hj]

lemma mem_cdr_gold {towers : List Tower} {evs : List CdrRaw} {row : CdrMinuteRow} :
    row ∈ cdr_stream_minute_gold towers evs ↔
      ∃ k ∈ cdrKeys (cdr_stream_silver towers evs),
        row = cdrMinuteAgg k (cdrBucket (cdr_stream_silver towers evs) k) := by
  simp only [cdr_stream_minute_gold, List.mem_map]
  constructor
  · rintro ⟨k, hk, rfl⟩; exact ⟨k, hk, rfl⟩
  · rintro ⟨k, hk, rfl⟩; exact ⟨k, hk, rfl⟩

lemma getD_eq_iff {o : Option String} {a : String} (h : o.isSome) :
    o.getD "" = a ↔ o = some a := by
  cases o <;> simp_all

/-- The silver rows of the bucket of key `k`, filtered further by `q`,
are the silver rows satisfying the conjunction of the key condition
(stated on the non-null `towerId`) and `q`. -/
lemma cdrBucket_filter_eq {towers : List Tower} {evs : List CdrRaw}
    (k : String × ℕ) (q : CdrRaw × Tower → Prop) [DecidablePred q] :
    (cdrBucket (cdr_stream_silver towers evs) k).filter (fun r => decide (q r)) =
      (cdr_stream_silver towers evs).filter
        (fun r => decide (r.1.towerId = some k.1 ∧ windowStartMin r.1.event_ts = k.2 ∧ q r)) := by
  rw [cdrBucket, List.filter_filter]
  refine List.filter_congr ?_
  intro r hr
  obtain ⟨tid, htid⟩ := Option.isSome_iff_exists.mp (cdr_silver_towerId_isSome hr)
  simp only [htid, Option.getD_some, Option.some.injEq, Bool.decide_and]
  simp [Bool.and_comm, Bool.and_left_comm, Bool.and_assoc]

/-- The bucket of key `k` consists of the silver rows whose (non-null)
`towerId` is `k.1` and whose minute-window start is `k.2`. -/
lemma cdrBucket_eq {towers : List Tower} {evs : List CdrRaw} (k : String × ℕ) :
    cdrBucket (cdr_stream_silver towers evs) k =
      (cdr_stream_silver towers evs).filter
        (fun r => decide (r.1.towerId = some k.1 ∧ windowStartMin r.1.event_ts = k.2)) := by
  refine List.filter_congr ?_
  intro r hr
  obtain ⟨tid, htid⟩ := Option.isSome_iff_exists.mp (cdr_silver_towerId_isSome hr)
  simp [htid]

/-- C1: every enriched CDR event is assigned to the bucket keyed by its
tower and the 1-minute floor of its event time, where it is counted in
the status counter, type counter and total matching it; on the Scenario A
input the pipeline produces exactly the expected minute bucket for `T1`
with dropped 1, answered 1, missed 0, total 2 and city `"X"`. -/
theorem cdr_minute_window_aggregation :
    (∀ (towers : List Tower) (evs : List CdrRaw) (row : CdrMinuteRow),
      row ∈ cdr_stream_minute_gold towers evs →
      row.totalRecords_CDR = ((cdr_stream_silver towers evs).filter
          (fun r => decide (r.1.towerId = some row.towerId ∧
            windowStartMin r.1.event_ts = row.date))).length ∧
      row.dropped = ((cdr_stream_silver towers evs).filter
          (fun r => decide (r.1.towerId = some row.towerId ∧
            windowStartMin r.1.event_ts = row.date ∧ r.1.status = some "dropped"))).length ∧
      row.answered = ((cdr_stream_silver towers evs).filter
          (fun r => decide (r.1.towerId = some row.towerId ∧
            windowStartMin r.1.event_ts = row.date ∧ r.1.status = some "answered"))).length ∧
      row.missed = ((cdr_stream_silver towers evs).filter
          (fun r => decide (r.1.towerId = some row.towerId ∧
            windowStartMin r.1.event_ts = row.date ∧ r.1.status = some "missed"))).length ∧
      row.call = ((cdr_stream_silver towers evs).filter
          (fun r => decide (r.1.towerId = some row.towerId ∧
            windowStartMin r.1.event_ts = row.date ∧ r.1.type = some "call"))).length ∧
      row.text = ((cdr_stream_silver towers evs).filter
          (fun r => decide (r.1.towerId = some row.towerId ∧
            windowStartMin r.1.event_ts = row.date ∧ r.1.type = some "text"))).length) ∧
    cdr_stream_minute_gold [towerT1] scenarioA_events = [scenarioA_row] := by
  constructor
  · intro towers evs row hrow
    rcases mem_cdr_gold.mp hrow with ⟨k, hk, rfl⟩
    refine ⟨?_, ?_, ?_, ?_, ?_, ?_⟩
    · simpa [cdrMinuteAgg] using congrArg List.length (@cdrBucket_eq towers evs k)
    · simpa [cdrMinuteAgg, countStatus] using congrArg List.length
        (@cdrBucket_filter_eq towers evs k
          (fun r => r.1.status = some "dropped") _)
    · simpa [cdrMinuteAgg, countStatus] using congrArg List.length
        (@cdrBucket_filter_eq towers evs k
          (fun r => r.1.status = some "answered") _)
    · simpa [cdrMinuteAgg, countStatus] using congrArg List.length
        (@cdrBucket_filter_eq towers evs k
          (fun r => r.1.status = some "missed") _)
    · simpa [cdrMinuteAgg, countType] using congrArg List.length
        (@cdrBucket_filter_eq towers evs k
          (fun r => r.1.type = some "call") _)
    · simpa [cdrMinuteAgg, countType] using congrArg List.length
        (@cdrBucket_filter_eq towers evs k
          (fun r => r.1.type = some "text") _)
  · decide

/-- Witness for `cdr_minute_window_aggregation`: its per-row counter
characterization applied to the Scenario A bucket. -/
theorem cdr_minute_window_aggregation_witness :
    scenarioA_row.totalRecords_CDR = ((cdr_stream_silver [towerT1] scenarioA_events).filter
        (fun r => decide (r.1.towerId = some scenarioA_row.towerId ∧
          windowStartMin r.1.event_ts = scenarioA_row.date))).length :=
  (cdr_minute_window_aggregation.1 [towerT1] scenarioA_events scenarioA_row (by decide)).1

lemma mem_pcmd_silver {towers : List Tower} {evs : List PcmdRaw} {r : PcmdRaw × Tower} :
    r ∈ pcmd_stream_silver towers evs ↔
      r.1 ∈ evs ∧ r.2 ∈ towers ∧ r.1.towerId = some r.2.GlobalID ∧ r.1.ProcedureId.isSome := by
  obtain ⟨e, t⟩ := r
  simp only [pcmd_stream_silver, List.mem_filter, List.mem_flatMap, List.mem_map,
    towerMatches, Bool.and_eq_true, decide_eq_true_eq, Prod.mk.injEq]
  constructor
  · rintro ⟨⟨e', he', t', ⟨ht', hj⟩, he, ht⟩, hts, hty⟩
    subst he; subst ht
    exact ⟨he', ht', hj, hty⟩
  · rintro ⟨he, ht, hj, hty⟩
    exact ⟨⟨e, he, t, ⟨ht, hj⟩, rfl, rfl⟩, by simp [hj], hty⟩

lemma pcmd_silver_towerId_isSome {towers : List Tower} {evs : List PcmdRaw}
    {r : PcmdRaw × Tower} (h : r ∈ pcmd_stream_silver towers evs) :
    r.1.towerId.isSome := by
  rcases mem_pcmd_silver.mp h with ⟨-, -, hj, -⟩
  simp [hj]

lemma mem_pcmd_gold {towers : List Tower} {evs : List PcmdRaw} {row : PcmdMinuteRow} :
    row ∈ pcmd_stream_minute_gold towers evs ↔
      ∃ k ∈ pcmdKeys (pcmd_stream_silver towers evs),
        row = pcmdMinuteAgg k (pcmdBucket (pcmd_stream_silver towers evs) k) := by
  simp only [pcmd_stream_minute_gold, List.mem_map]
  constructor
  · rintro ⟨k, hk, rfl⟩; exact ⟨k, hk, rfl⟩
  · rintro ⟨k, hk, rfl⟩; exact ⟨k, hk, rfl⟩

lemma mem_cdrKeys {silver : List (CdrRaw × Tower)} {k : String × ℕ} :
    k ∈ cdrKeys silver ↔
      ∃ r ∈ silver, (r.1.towerId.getD "", windowStartMin r.1.event_ts) = k := by
  simp [cdrKeys, List.mem_dedup, List.mem_map]

lemma mem_pcmdKeys {silver : List (PcmdRaw × Tower)} {k : String × ℕ} :
    k ∈ pcmdKeys silver ↔
      ∃ r ∈ silver, (r.1.towerId.getD "", windowStartMin r.1.event_ts) = k := by
  simp [pcmdKeys, List.mem_dedup, List.mem_map]

lemma mem_rollupKeys {fl : ℕ → ℕ} {rows : List CdrMinuteRow} {k : String × ℕ} :
    k ∈ rollupKeys fl rows ↔ ∃ m ∈ rows, (m.towerId, fl m.date) = k := by
  simp [rollupKeys, List.mem_dedup, List.mem_map]

/-- C2: the per-type quality policies of the silver layer: a CDR record
is dropped exactly when `towerId` or `type` is null; a PCMD record is
dropped exactly when `towerId` or `ProcedureId` is null; and a PCMD
record with `ProcedureDuration ≤ 0` (and both ids non-null) is tagged but
kept, reaching the silver join output and the minute aggregation. -/
theorem silver_quality_policies :
    (∀ e : CdrRaw, cdrNormalize e = none ↔ e.towerId = none ∨ e.type = none) ∧
    (∀ e : PcmdRaw, pcmdNormalize e = none ↔ e.towerId = none ∨ e.ProcedureId = none) ∧
    (∀ e : PcmdRaw, e.towerId ≠ none → e.ProcedureId ≠ none → e.ProcedureDuration ≤ 0 →
      pcmdNormalize e = some (e, true) ∧
      ∀ (towers : List Tower) (evs : List PcmdRaw) (t : Tower),
        e ∈ evs → t ∈ towers → e.towerId = some t.GlobalID →
        (e, t) ∈ pcmd_stream_silver towers evs ∧
        ∃ row ∈ pcmd_stream_minute_gold towers evs,
          row.towerId = t.GlobalID ∧ row.date = windowStartMin e.event_ts ∧
          (e, t) ∈ pcmdBucket (pcmd_stream_silver towers evs)
            (t.GlobalID, windowStartMin e.event_ts) ∧
          row.totalRecords_PCMD = (pcmdBucket (pcmd_stream_silver towers evs)
            (t.GlobalID, windowStartMin e.event_ts)).length) := by
  refine ⟨?_, ?_, ?_⟩
  · intro e
    unfold cdrNormalize
    split <;> simp_all
  · intro e
    unfold pcmdNormalize
    split <;> simp_all
  · intro e h1 h2 hdur
    have hnorm : pcmdNormalize e = some (e, true) := by
      unfold pcmdNormalize
      split
      · simp_all
      · simp [hdur]
    refine ⟨hnorm, ?_⟩
    intro towers evs t he ht hj
    have hs : (e, t) ∈ pcmd_stream_silver towers evs := by
      refine mem_pcmd_silver.mpr ⟨he, ht, hj, ?_⟩
      cases hpid : e.ProcedureId with
      | none => exact absurd hpid h2
      | some _ => rfl
    have hkey : ((t.GlobalID : String), windowStartMin e.event_ts) ∈
        pcmdKeys (pcmd_stream_silver towers evs) := by
      refine mem_pcmdKeys.mpr ⟨(e, t), hs, ?_⟩
      simp [hj]
    have hb : (e, t) ∈ pcmdBucket (pcmd_stream_silver towers evs)
        (t.GlobalID, windowStartMin e.event_ts) := by
      refine List.mem_filter.mpr ⟨hs, ?_⟩
      simp [hj]
    refine ⟨hs, pcmdMinuteAgg (t.GlobalID, windowStartMin e.event_ts)
      (pcmdBucket (pcmd_stream_silver towers evs) (t.GlobalID, windowStartMin e.event_ts)),
      ?_, rfl, rfl, hb, rfl⟩
    exact List.mem_map.mpr ⟨(t.GlobalID, windowStartMin e.event_ts), hkey, rfl⟩

/-- Witness for `silver_quality_policies`: a PCMD event with duration
`-5` and valid ids is tagged, kept in silver, and counted in its minute
bucket. -/
theorem silver_quality_policies_witness :
    pcmdNormalize ⟨some "T1", some "11", -5, 36015⟩ = some (⟨some "T1", some "11", -5, 36015⟩, true) ∧
    (⟨some "T1", some "11", -5, 36015⟩, towerT1) ∈
      pcmd_stream_silver [towerT1] [⟨some "T1", some "11", -5, 36015⟩] := by
  have h := silver_quality_policies.2.2 ⟨some "T1", some "11", -5, 36015⟩
    (by decide) (by decide) (by norm_num)
  exact ⟨h.1, (h.2 [towerT1] [⟨some "T1", some "11", -5, 36015⟩] towerT1
    (by decide) (by decide) (by decide)).1⟩

/-- C3: an event whose `towerId` has no record in the tower directory is
dropped by the enrichment join and contributes to no aggregate at any
granularity: the silver tables carry no row for it and no minute, hour or
day gold row is ever keyed by that tower. -/
theorem join_miss_no_aggregate :
    ∀ (towers : List Tower) (tid : String), (∀ t ∈ towers, t.GlobalID ≠ tid) →
      (∀ (evs : List CdrRaw) (r : CdrRaw × Tower),
        r ∈ cdr_stream_silver towers evs → r.1.towerId ≠ some tid) ∧
      (∀ (evs : List CdrRaw) (row : CdrMinuteRow),
        row ∈ cdr_stream_minute_gold towers evs → row.towerId ≠ tid) ∧
      (∀ (evs : List CdrRaw) (row : CdrRollupRow),
        row ∈ cdr_stream_hour_gold (cdr_stream_minute_gold towers evs) → row.towerId ≠ tid) ∧
      (∀ (evs : List CdrRaw) (row : CdrRollupRow),
        row ∈ cdr_stream_day_gold (cdr_stream_minute_gold towers evs) → row.towerId ≠ tid) ∧
      (∀ (evs : List PcmdRaw) (r : PcmdRaw × Tower),
        r ∈ pcmd_stream_silver towers evs → r.1.towerId ≠ some tid) ∧
      (∀ (evs : List PcmdRaw) (row : PcmdMinuteRow),
        row ∈ pcmd_stream_minute_gold towers evs → row.towerId ≠ tid) := by
  intro towers tid habs
  have hcs : ∀ (evs : List CdrRaw) (r : CdrRaw × Tower),
      r ∈ cdr_stream_silver towers evs → r.1.towerId ≠ some tid := by
    intro evs r hr heq
    rcases mem_cdr_silver.mp hr with ⟨-, ht, hj, -⟩
    rw [hj] at heq
    exact habs r.2 ht (Option.some.inj heq)
  have hcm : ∀ (evs : List CdrRaw) (row : CdrMinuteRow),
      row ∈ cdr_stream_minute_gold towers evs → row.towerId ≠ tid := by
    intro evs row hrow heq
    rcases mem_cdr_gold.mp hrow with ⟨k, hk, rfl⟩
    rcases mem_cdrKeys.mp hk with ⟨r, hr, hkey⟩
    obtain ⟨tid', htid'⟩ := Option.isSome_iff_exists.mp (cdr_silver_towerId_isSome hr)
    have hk1 : k.1 = tid := heq
    have h1 : r.1.towerId.getD "" = k.1 := congrArg Prod.fst hkey
    rw [htid'] at h1
    simp only [Option.getD_some] at h1
    exact hcs evs r hr (by rw [htid', h1, hk1])
  have hps : ∀ (evs : List PcmdRaw) (r : PcmdRaw × Tower),
      r ∈ pcmd_stream_silver towers evs → r.1.towerId ≠ some tid := by
    intro evs r hr heq
    rcases mem_pcmd_silver.mp hr with ⟨-, ht, hj, -⟩
    rw [hj] at heq
    exact habs r.2 ht (Option.some.inj heq)
  refine ⟨hcs, hcm, ?_, ?_, hps, ?_⟩
  · intro evs row hrow heq
    rcases List.mem_map.mp hrow with ⟨k, hk, rfl⟩
    rcases mem_rollupKeys.mp hk with ⟨m, hm, hkey⟩
    exact hcm evs m hm ((congrArg Prod.fst hkey).trans (heq : k.1 = tid))
  · intro evs row hrow heq
    rcases List.mem_map.mp hrow with ⟨k, hk, rfl⟩
    rcases mem_rollupKeys.mp hk with ⟨m, hm, hkey⟩
    exact hcm evs m hm ((congrArg Prod.fst hkey).trans (heq : k.1 = tid))
  · intro evs row hrow heq
    rcases mem_pcmd_gold.mp hrow with ⟨k, hk, rfl⟩
    rcases mem_pcmdKeys.mp hk with ⟨r, hr, hkey⟩
    obtain ⟨tid', htid'⟩ := Option.isSome_iff_exists.mp (pcmd_silver_towerId_isSome hr)
    have hk1 : k.1 = tid := heq
    have h1 : r.1.towerId.getD "" = k.1 := congrArg Prod.fst hkey
    rw [htid'] at h1
    simp only [Option.getD_some] at h1
    exact hps evs r hr (by rw [htid', h1, hk1])

/-- Witness for `join_miss_no_aggregate`: with a directory holding only
`T1`, running the Scenario A events together with a CDR event for the
unknown tower `T9` leaves only the `T1` bucket, whose key the theorem
shows is not `T9` (Scenario C). -/
theorem join_miss_no_aggregate_witness :
    scenarioA_row.towerId ≠ "T9" :=
  (join_miss_no_aggregate [towerT1] "T9" (by decide)).2.1
    (scenarioA_events ++ [⟨some "T9", some "call", some "dropped", 36015⟩])
    scenarioA_row (by decide)

/-- C4: a CDR event with non-null `towerId` and `type` but null `status`
is retained into its minute bucket, counted in the total and in its type
counter, but in none of the status counters (the `F.when` comparison is
null on a null `status`, and `F.count` skips nulls). -/
theorem null_status_event_flows :
    ∀ (towers : List Tower) (evs : List CdrRaw) (e : CdrRaw) (t : Tower),
      e ∈ evs → t ∈ towers → e.towerId = some t.GlobalID → e.type.isSome →
      e.status = none →
      (e, t) ∈ cdrBucket (cdr_stream_silver towers evs)
          (t.GlobalID, windowStartMin e.event_ts) ∧
      (∃ row ∈ cdr_stream_minute_gold towers evs,
        row.towerId = t.GlobalID ∧ row.date = windowStartMin e.event_ts ∧
        row.totalRecords_CDR = (cdrBucket (cdr_stream_silver towers evs)
            (t.GlobalID, windowStartMin e.event_ts)).length ∧
        row.dropped = countStatus (cdrBucket (cdr_stream_silver towers evs)
            (t.GlobalID, windowStartMin e.event_ts)) "dropped" ∧
        row.answered = countStatus (cdrBucket (cdr_stream_silver towers evs)
            (t.GlobalID, windowStartMin e.event_ts)) "answered" ∧
        row.missed = countStatus (cdrBucket (cdr_stream_silver towers evs)
            (t.GlobalID, windowStartMin e.event_ts)) "missed" ∧
        row.call = countType (cdrBucket (cdr_stream_silver towers evs)
            (t.GlobalID, windowStartMin e.event_ts)) "call" ∧
        row.text = countType (cdrBucket (cdr_stream_silver towers evs)
            (t.GlobalID, windowStartMin e.event_ts)) "text") ∧
      (∀ s : String, (e, t) ∉ (cdrBucket (cdr_stream_silver towers evs)
          (t.GlobalID, windowStartMin e.event_ts)).filter
            (fun r => decide (r.1.status = some s))) ∧
      (∀ ty : String, e.type = some ty →
        (e, t) ∈ (cdrBucket (cdr_stream_silver towers evs)
          (t.GlobalID, windowStartMin e.event_ts)).filter
            (fun r => decide (r.1.type = some ty))) := by
  intro towers evs e t he ht hj hty hst
  have hs : (e, t) ∈ cdr_stream_silver towers evs := mem_cdr_silver.mpr ⟨he, ht, hj, hty⟩
  have hb : (e, t) ∈ cdrBucket (cdr_stream_silver towers evs)
      (t.GlobalID, windowStartMin e.event_ts) :=
    List.mem_filter.mpr ⟨hs, by simp [hj]⟩
  have hkey : ((t.GlobalID : String), windowStartMin e.event_ts) ∈
      cdrKeys (cdr_stream_silver towers evs) :=
    mem_cdrKeys.mpr ⟨(e, t), hs, by simp [hj]⟩
  refine ⟨hb, ⟨cdrMinuteAgg (t.GlobalID, windowStartMin e.event_ts)
      (cdrBucket (cdr_stream_silver towers evs) (t.GlobalID, windowStartMin e.event_ts)),
      List.mem_map.mpr ⟨_, hkey, rfl⟩, rfl, rfl, rfl, rfl, rfl, rfl, rfl, rfl⟩, ?_, ?_⟩
  · intro s hmem
    rcases List.mem_filter.mp hmem with ⟨-, hq⟩
    simp [hst] at hq
  · intro ty hty'
    exact List.mem_filter.mpr ⟨hb, by simp [hty']⟩

/-- Witness for `null_status_event_flows`: a call event for `T1` with null
status is not counted by the `dropped` filter of its bucket but is counted
by the `call` type filter. -/
theorem null_status_event_flows_witness :
    ((⟨some "T1", some "call", none, 36015⟩, towerT1) ∉
      (cdrBucket (cdr_stream_silver [towerT1] [⟨some "T1", some "call", none, 36015⟩])
        ("T1", 36000)).filter (fun r => decide (r.1.status = some "dropped"))) ∧
    ((⟨some "T1", some "call", none, 36015⟩, towerT1) ∈
      (cdrBucket (cdr_stream_silver [towerT1] [⟨some "T1", some "call", none, 36015⟩])
        ("T1", 36000)).filter (fun r => decide (r.1.type = some "call"))) := by
  have h := null_status_event_flows [towerT1] [⟨some "T1", some "call", none, 36015⟩]
    ⟨some "T1", some "call", none, 36015⟩ towerT1
    (by decide) (by decide) (by decide) (by decide) (by decide)
  exact ⟨h.2.2.1 "dropped", h.2.2.2 "call" (by decide)⟩

/-- C5: hour- and day-level CDR aggregates are purely additive over the
minute-level aggregates: each counter of a rollup row is the sum of that
counter over the minute rows of the same tower whose window start floors
into the rollup window; four Scenario B minute buckets with `total = 10`
roll up to an hour bucket with `total = 40`. -/
theorem cdr_rollup_additive :
    (∀ (rows : List CdrMinuteRow) (row : CdrRollupRow),
      row ∈ cdr_stream_hour_gold rows →
      row.dropped = ((rows.filter (fun m => decide (m.towerId = row.towerId ∧
          windowStartHour m.date = row.datetime))).map (fun m => m.dropped)).sum ∧
      row.answered = ((rows.filter (fun m => decide (m.towerId = row.towerId ∧
          windowStartHour m.date = row.datetime))).map (fun m => m.answered)).sum ∧
      row.missed = ((rows.filter (fun m => decide (m.towerId = row.towerId ∧
          windowStartHour m.date = row.datetime))).map (fun m => m.missed)).sum ∧
      row.text = ((rows.filter (fun m => decide (m.towerId = row.towerId ∧
          windowStartHour m.date = row.datetime))).map (fun m => m.text)).sum ∧
      row.call = ((rows.filter (fun m => decide (m.towerId = row.towerId ∧
          windowStartHour m.date = row.datetime))).map (fun m => m.call)).sum ∧
      row.totalRecords_CDR = ((rows.filter (fun m => decide (m.towerId = row.towerId ∧
          windowStartHour m.date = row.datetime))).map (fun m => m.totalRecords_CDR)).sum) ∧
    (∀ (rows : List CdrMinuteRow) (row : CdrRollupRow),
      row ∈ cdr_stream_day_gold rows →
      row.dropped = ((rows.filter (fun m => decide (m.towerId = row.towerId ∧
          windowStartDay m.date = row.datetime))).map (fun m => m.dropped)).sum ∧
      row.answered = ((rows.filter (fun m => decide (m.towerId = row.towerId ∧
          windowStartDay m.date = row.datetime))).map (fun m => m.answered)).sum ∧
      row.missed = ((rows.filter (fun m => decide (m.towerId = row.towerId ∧
          windowStartDay m.date = row.datetime))).map (fun m => m.missed)).sum ∧
      row.text = ((rows.filter (fun m => decide (m.towerId = row.towerId ∧
          windowStartDay m.date = row.datetime))).map (fun m => m.text)).sum ∧
      row.call = ((rows.filter (fun m => decide (m.towerId = row.towerId ∧
          windowStartDay m.date = row.datetime))).map (fun m => m.call)).sum ∧
      row.totalRecords_CDR = ((rows.filter (fun m => decide (m.towerId = row.towerId ∧
          windowStartDay m.date = row.datetime))).map (fun m => m.totalRecords_CDR)).sum) ∧
    (cdr_stream_hour_gold scenarioB_rows).map
      (fun r => (r.datetime, r.towerId, r.totalRecords_CDR)) = [(36000, "T1", 40)] := by
  refine ⟨?_, ?_, by decide⟩
  · intro rows row hrow
    rcases List.mem_map.mp hrow with ⟨k, hk, rfl⟩
    exact ⟨rfl, rfl, rfl, rfl, rfl, rfl⟩
  · intro rows row hrow
    rcases List.mem_map.mp hrow with ⟨k, hk, rfl⟩
    exact ⟨rfl, rfl, rfl, rfl, rfl, rfl⟩

/-- Witness for `cdr_rollup_additive`: the Scenario B hour bucket's total
is the sum of its four minute totals. -/
theorem cdr_rollup_additive_witness :
    (cdrRollupAgg ("T1", 36000) (rollupBucket windowStartHour scenarioB_rows
        ("T1", 36000))).totalRecords_CDR =
      ((scenarioB_rows.filter (fun m => decide (m.towerId = "T1" ∧
        windowStartHour m.date = 36000))).map (fun m => m.totalRecords_CDR)).sum :=
  (cdr_rollup_additive.1 scenarioB_rows
    (cdrRollupAgg ("T1", 36000) (rollupBucket windowStartHour scenarioB_rows ("T1", 36000)))
    (by decide)).2.2.2.2.2

/-- C6: the rollup combine of the CDR hour/day gold tables is associative:
recombining `[combine [a, b], c]` and `[a, combine [b, c]]` gives the same
aggregate on every (sum-combined) counter field. -/
theorem combineCdr_assoc :
    ∀ a b c : CdrCounts,
      combineCdr [combineCdr [a, b], c] = combineCdr [a, combineCdr [b, c]] := by
  intro a b c
  simp only [combineCdr, List.map_cons, List.map_nil, List.sum_cons, List.sum_nil,
    CdrCounts.mk.injEq]
  omega

/-- Unfolding of the minimum aggregate on a non-empty group. -/
lemma listMin_cons (a : ℚ) (l : List ℚ) :
    listMin (a :: l) = match listMin l with
      | none => some a
      | some m => some (min a m) := rfl

/-- The minimum aggregate of a group containing `d` is defined and at
most `d`. -/
lemma listMin_le_of_mem {l : List ℚ} {d : ℚ} (h : d ∈ l) :
    ∃ m, listMin l = some m ∧ m ≤ d := by
  induction l with
  | nil => cases h
  | cons a l ih =>
      rw [listMin_cons]
      rcases List.mem_cons.mp h with rfl | hd
      · cases hl : listMin l with
        | none => exact ⟨d, rfl, le_refl d⟩
        | some m => exact ⟨min d m, rfl, min_le_left d m⟩
      · rcases ih hd with ⟨m, hm, hle⟩
        rw [hm]
        exact ⟨min a m, rfl, le_trans (min_le_right a m) hle⟩

/-- The average aggregate of a non-empty group is its sum over its
size. -/
lemma listAvg_of_ne_nil {l : List ℚ} (h : l ≠ []) :
    listAvg l = some (l.sum / (l.length : ℚ)) := by
  simp [listAvg, h]

/-- C9: a PCMD event tagged for `ProcedureDuration ≤ 0` but retained has
its duration included in the per-procedure avg/max/min of its minute
bucket exactly like an untagged event: for procedure "11" it enters the
duration multiset, forces the `min` column down to at most its value, and
enters the average. -/
theorem tagged_pcmd_duration_included :
    ∀ (towers : List Tower) (evs : List PcmdRaw) (e : PcmdRaw) (t : Tower),
      e ∈ evs → t ∈ towers → e.towerId = some t.GlobalID →
      e.ProcedureId = some "11" → e.ProcedureDuration ≤ 0 →
      pcmdNormalize e = some (e, true) ∧
      e.ProcedureDuration ∈ procDurations (pcmdBucket (pcmd_stream_silver towers evs)
          (t.GlobalID, windowStartMin e.event_ts)) "11" ∧
      ∃ row ∈ pcmd_stream_minute_gold towers evs,
        row.towerId = t.GlobalID ∧ row.date = windowStartMin e.event_ts ∧
        (∃ m, row.min_dur_request_to_release_bearer = some m ∧
          m ≤ e.ProcedureDuration) ∧
        row.avg_dur_request_to_release_bearer =
          some ((procDurations (pcmdBucket (pcmd_stream_silver towers evs)
              (t.GlobalID, windowStartMin e.event_ts)) "11").sum /
            ((procDurations (pcmdBucket (pcmd_stream_silver towers evs)
              (t.GlobalID, windowStartMin e.event_ts)) "11").length : ℚ)) := by
  intro towers evs e t he ht hj hpid hdur
  have hnorm : pcmdNormalize e = some (e, true) := by
    unfold pcmdNormalize
    split
    · simp_all
    · simp [hdur]
  have hs : (e, t) ∈ pcmd_stream_silver towers evs :=
    mem_pcmd_silver.mpr ⟨he, ht, hj, by simp [hpid]⟩
  have hb : (e, t) ∈ pcmdBucket (pcmd_stream_silver towers evs)
      (t.GlobalID, windowStartMin e.event_ts) :=
    List.mem_filter.mpr ⟨hs, by simp [hj]⟩
  have hd : e.ProcedureDuration ∈ procDurations (pcmdBucket (pcmd_stream_silver towers evs)
      (t.GlobalID, windowStartMin e.event_ts)) "11" :=
    List.mem_filterMap.mpr ⟨(e, t), hb, by simp [hpid]⟩
  have hkey : ((t.GlobalID : String), windowStartMin e.event_ts) ∈
      pcmdKeys (pcmd_stream_silver towers evs) :=
    mem_pcmdKeys.mpr ⟨(e, t), hs, by simp [hj]⟩
  rcases listMin_le_of_mem hd with ⟨m, hm, hle⟩
  refine ⟨hnorm, hd, pcmdMinuteAgg (t.GlobalID, windowStartMin e.event_ts)
      (pcmdBucket (pcmd_stream_silver towers evs) (t.GlobalID, windowStartMin e.event_ts)),
    List.mem_map.mpr ⟨_, hkey, rfl⟩, rfl, rfl, ⟨m, hm, hle⟩,
    listAvg_of_ne_nil (List.ne_nil_of_mem hd)⟩

/-- Witness for `tagged_pcmd_duration_included`: a retained PCMD event
with procedure "11" and duration `-5` lands in its bucket's duration
multiset for procedure "11". -/
theorem tagged_pcmd_duration_included_witness :
    pcmdNormalize ⟨some "T1", some "11", -5, 36015⟩ =
      some (⟨some "T1", some "11", -5, 36015⟩, true) ∧
    (⟨some "T1", some "11", -5, 36015⟩ : PcmdRaw).ProcedureDuration ∈
      procDurations (pcmdBucket (pcmd_stream_silver [towerT1]
        [⟨some "T1", some "11", -5, 36015⟩]) ("T1", 36000)) "11" := by
  have h := tagged_pcmd_duration_included [towerT1] [⟨some "T1", some "11", -5, 36015⟩]
    ⟨some "T1", some "11", -5, 36015⟩ towerT1
    (by decide) (by decide) (by decide) (by decide) (by norm_num)
  exact ⟨h.1, h.2.1⟩

/-- C10: a retained PCMD event whose procedure id is not one of the
tracked ids "11", "15", "16" does not enter any per-procedure duration
multiset, and a minute bucket of only such events has all nine avg/max/min
columns null while `totalRecords_PCMD` counts every bucket row. -/
theorem untracked_procedure_only_total :
    (∀ (b : List (PcmdRaw × Tower)) (r : PcmdRaw × Tower) (p : String),
      r.1.ProcedureId ≠ some p →
      procDurations (r :: b) p = procDurations b p) ∧
    (∀ (towers : List Tower) (evs : List PcmdRaw),
      (∀ e ∈ evs, e.ProcedureId ≠ some "11" ∧ e.ProcedureId ≠ some "15" ∧
        e.ProcedureId ≠ some "16") →
      ∀ row ∈ pcmd_stream_minute_gold towers evs,
        row.avg_dur_request_to_release_bearer = none ∧
        row.avg_dur_notification_data_sent_to_UE = none ∧
        row.avg_dur_request_to_setup_bearer = none ∧
        row.max_dur_request_to_release_bearer = none ∧
        row.max_dur_notification_data_sent_to_UE = none ∧
        row.max_dur_request_to_setup_bearer = none ∧
        row.min_dur_request_to_release_bearer = none ∧
        row.min_dur_notification_data_sent_to_UE = none ∧
        row.min_dur_request_to_setup_bearer = none ∧
        row.totalRecords_PCMD = (pcmdBucket (pcmd_stream_silver towers evs)
          (row.towerId, row.date)).length) := by
  constructor
  · intro b r p hne
    simp [procDurations, hne]
  · intro towers evs hunt row hrow
    rcases mem_pcmd_gold.mp hrow with ⟨k, hk, rfl⟩
    have hnil : ∀ p : String, p = "11" ∨ p = "15" ∨ p = "16" →
        procDurations (pcmdBucket (pcmd_stream_silver towers evs) k) p = [] := by
      intro p hp
      rw [procDurations, List.filterMap_eq_nil_iff]
      intro r hr
      have hrs : r ∈ pcmd_stream_silver towers evs := (List.mem_filter.mp hr).1
      have hre := hunt r.1 (mem_pcmd_silver.mp hrs).1
      rcases hp with rfl | rfl | rfl <;> simp [hre.1, hre.2.1, hre.2.2]
    refine ⟨?_, ?_, ?_, ?_, ?_, ?_, ?_, ?_, ?_, rfl⟩ <;>
      simp [pcmdMinuteAgg, hnil "11" (Or.inl rfl), hnil "15" (Or.inr (Or.inl rfl)),
        hnil "16" (Or.inr (Or.inr rfl)), listAvg, listMax, listMin]

/-- Witness for `untracked_procedure_only_total`: a bucket holding only a
procedure-"99" event has a null release-bearer average and total 1. -/
theorem untracked_procedure_only_total_witness :
    (pcmdMinuteAgg ("T1", 36000) (pcmdBucket (pcmd_stream_silver [towerT1]
        [⟨some "T1", some "99", 7, 36015⟩]) ("T1", 36000))).avg_dur_request_to_release_bearer
      = none :=
  (untracked_procedure_only_total.2 [towerT1] [⟨some "T1", some "99", 7, 36015⟩]
    (by decide)
    (pcmdMinuteAgg ("T1", 36000) (pcmdBucket (pcmd_stream_silver [towerT1]
      [⟨some "T1", some "99", 7, 36015⟩]) ("T1", 36000)))
    (by decide)).1

/-- Unfolding of the maximum aggregate on a non-empty group. -/
lemma listMax_cons (a : ℚ) (l : List ℚ) :
    listMax (a :: l) = match listMax l with
      | none => some a
      | some m => some (max a m) := rfl

/-- The maximum aggregate splits over concatenation. -/
lemma listMax_append (l₁ l₂ : List ℚ) :
    listMax (l₁ ++ l₂) = optMax (listMax l₁) (listMax l₂) := by
  induction l₁ with
  | nil => rfl
  | cons a l₁ ih =>
      rw [List.cons_append, listMax_cons, listMax_cons, ih]
      cases listMax l₁ <;> cases listMax l₂ <;> simp [optMax, max_assoc]

/-- The minimum aggregate splits over concatenation. -/
lemma listMin_append (l₁ l₂ : List ℚ) :
    listMin (l₁ ++ l₂) = optMin (listMin l₁) (listMin l₂) := by
  induction l₁ with
  | nil => rfl
  | cons a l₁ ih =>
      rw [List.cons_append, listMin_cons, listMin_cons, ih]
      cases listMin l₁ <;> cases listMin l₂ <;> simp [optMin, min_assoc]

/-- Folding elementwise max over the per-child maxima computes the max
of all underlying values. -/
lemma listMax_flatten (ls : List (List ℚ)) :
    ls.foldr (fun l acc => optMax (listMax l) acc) none = listMax ls.flatten := by
  induction ls with
  | nil => rfl
  | cons l ls ih => rw [List.flatten_cons, listMax_append, List.foldr_cons, ih]

/-- Folding elementwise min over the per-child minima computes the min
of all underlying values. -/
lemma listMin_flatten (ls : List (List ℚ)) :
    ls.foldr (fun l acc => optMin (listMin l) acc) none = listMin ls.flatten := by
  induction ls with
  | nil => rfl
  | cons l ls ih => rw [List.flatten_cons, listMin_append, List.foldr_cons, ih]

/-- Multiplying a child bucket's stored average back by its count
recovers the child's duration sum. -/
lemma procStats_avg_mul (l : List ℚ) :
    (procStatsOf l).avg.getD 0 * ((procStatsOf l).count : ℚ) = l.sum := by
  by_cases h : l = []
  · subst h; simp [procStatsOf, listAvg]
  · have hlen : (l.length : ℚ) ≠ 0 :=
      Nat.cast_ne_zero.mpr (fun hl => h (List.length_eq_zero.mp hl))
    simp only [procStatsOf, listAvg, if_neg h, Option.getD_some]
    exact div_mul_cancel₀ l.sum hlen

/-- The modelled PCMD rollup combine is a homomorphism from duration
lists: combining the per-child stats equals computing the stats of all
underlying durations directly. -/
lemma combinePcmdProc_flatten (ls : List (List ℚ)) :
    combinePcmdProc (ls.map procStatsOf) = procStatsOf ls.flatten := by
  have hcount : ((ls.map procStatsOf).map (fun s => s.count)).sum = ls.flatten.length := by
    rw [List.map_map, List.length_flatten]
    rfl
  have hsum : ((ls.map procStatsOf).map
      (fun s => s.avg.getD 0 * (s.count : ℚ))).sum = ls.flatten.sum := by
    rw [List.map_map, List.sum_flatten]
    exact congrArg List.sum (List.map_congr_left (fun l _ => procStats_avg_mul l))
  ext1
  · simp only [combinePcmdProc, procStatsOf]
    rw [hcount, hsum]
    by_cases h : ls.flatten = []
    · have h0 : ls.flatten.length = 0 := by simp [h]
      simp [listAvg, h, h0, ← List.length_flatten]
    · have h0 : ¬ ls.flatten.length = 0 := fun hl => h (List.length_eq_zero.mp hl)
      simp [listAvg, h, h0, ← List.length_flatten]
  · simp only [combinePcmdProc, procStatsOf]
    exact hcount
  · simp only [combinePcmdProc, procStatsOf]
    rw [List.foldr_map]
    exact listMax_flatten ls
  · simp only [combinePcmdProc, procStatsOf]
    rw [List.foldr_map]
    exact listMin_flatten ls

/-- C7: the modelled PCMD hour/day rollup re-derives the per-procedure
average from an accumulated `(sum, count)` pair (each child contributes
`avg * count`, one division at combine time) and combines max/min
elementwise, so combining children built from duration lists gives
exactly the statistics of all underlying durations; the grouped rollup
(instantiated with the hour or day window floor) enjoys the same
property bucket by bucket. -/
theorem pcmd_rollup_rederives_stats :
    (∀ ls : List (List ℚ),
      combinePcmdProc (ls.map procStatsOf) = procStatsOf ls.flatten) ∧
    (∀ (data : List (String × ℕ × List ℚ)) (fl : ℕ → ℕ) (out : String × ℕ × ProcStats),
      out ∈ pcmdRollup fl (data.map (fun d => (d.1, d.2.1, procStatsOf d.2.2))) →
      out.2.2 = procStatsOf (((data.filter (fun d =>
        decide (d.1 = out.1 ∧ fl d.2.1 = out.2.1))).map (fun d => d.2.2)).flatten)) := by
  refine ⟨combinePcmdProc_flatten, ?_⟩
  intro data fl out hout
  rcases List.mem_map.mp hout with ⟨k, hk, rfl⟩
  have h := combinePcmdProc_flatten
    ((data.filter (fun d => decide (d.1 = k.1 ∧ fl d.2.1 = k.2))).map (fun d => d.2.2))
  rw [List.map_map] at h
  show combinePcmdProc _ = _
  rw [List.filter_map, List.map_map]
  exact h

/-- Witness for `pcmd_rollup_rederives_stats`: combining two minute
buckets with durations `[2, 4]` and `[6]` in the same hour yields the
statistics of `[2, 4, 6]` (average 4, not the average-of-averages 4.5). -/
theorem pcmd_rollup_rederives_stats_witness :
    (("T1", 36000, combinePcmdProc [procStatsOf [2, 4], procStatsOf [6]]) :
        String × ℕ × ProcStats).2.2 =
      procStatsOf (((([("T1", 36000, [2, 4]), ("T1", 36060, [6])] :
          List (String × ℕ × List ℚ)).filter
        (fun d => decide (d.1 = "T1" ∧ windowStartHour d.2.1 = 36000))).map
          (fun d => d.2.2)).flatten) :=
  pcmd_rollup_rederives_stats.2 [("T1", 36000, [2, 4]), ("T1", 36060, [6])]
    windowStartHour ("T1", 36000, combinePcmdProc [procStatsOf [2, 4], procStatsOf [6]])
    (by apply List.Mem.head)

/-- Merging one event adds exactly one contribution to the open
buckets. -/
lemma wmMerge_count (l : List WmBucket) (tid : String) (ws : ℕ) :
    ((wmMerge l tid ws).map (fun b => b.count)).sum =
      (l.map (fun b => b.count)).sum + 1 := by
  induction l with
  | nil => rfl
  | cons b l ih =>
      by_cases h : b.towerId = tid ∧ b.windowStart = ws
      · simp only [wmMerge, if_pos h, List.map_cons, List.sum_cons]
        omega
      · simp only [wmMerge, if_neg h, List.map_cons, List.sum_cons, ih]
        omega

/-- Merging into an existing bucket leaves the key multiset unchanged. -/
lemma wmMerge_keys_of_mem {l : List WmBucket} {tid : String} {ws : ℕ}
    (h : (tid, ws) ∈ l.map wmKey) :
    (wmMerge l tid ws).map wmKey = l.map wmKey := by
  induction l with
  | nil => simp at h
  | cons b l ih =>
      by_cases hb : b.towerId = tid ∧ b.windowStart = ws
      · simp [wmMerge, hb, wmKey]
      · have hmem : (tid, ws) ∈ l.map wmKey := by
          rcases List.mem_cons.mp h with heq | hmem
          · exact absurd ⟨(congrArg Prod.fst heq).symm, (congrArg Prod.snd heq).symm⟩ hb
          · exact hmem
        simp [wmMerge, hb, ih hmem]

/-- Merging a fresh key opens one new bucket at the end. -/
lemma wmMerge_keys_of_not_mem {l : List WmBucket} {tid : String} {ws : ℕ}
    (h : (tid, ws) ∉ l.map wmKey) :
    (wmMerge l tid ws).map wmKey = l.map wmKey ++ [(tid, ws)] := by
  induction l with
  | nil => rfl
  | cons b l ih =>
      by_cases hb : b.towerId = tid ∧ b.windowStart = ws
      · exfalso
        apply h
        rw [List.map_cons]
        exact List.mem_cons.mpr (Or.inl (by simp [wmKey, hb.1, hb.2]))
      · have hmem : (tid, ws) ∉ l.map wmKey := fun hm => h (List.mem_cons_of_mem _ hm)
        simp [wmMerge, hb, ih hmem]

/-- Splitting a bucket list by the sealing predicate permutes it. -/
lemma wm_filter_perm (p : WmBucket → Bool) (l : List WmBucket) :
    (l.filter (fun b => !(p b)) ++ l.filter p).Perm l := by
  have h := List.filter_append_perm (fun b => !(p b)) l
  have heq : l.filter (fun b => !(!(p b))) = l.filter p := by
    refine List.filter_congr ?_
    intro a _
    exact Bool.not_not (p a)
  rwa [heq] at h

/-- Sealing is monotone in the watermark. -/
lemma wmSealed_mono {cfg : WmConfig} {wm wm' ws : ℕ} (h : wm ≤ wm')
    (hs : wmSealed cfg wm ws = true) : wmSealed cfg wm' ws = true := by
  simp only [wmSealed, decide_eq_true_eq] at hs ⊢
  omega

/-- An event whose window is already sealed only bumps the LateArrival
metric. -/
lemma wmStep_drop {cfg : WmConfig} {s : WmState} {e : WmEvent}
    (h : wmSealed cfg s.watermark (wmWindowStart cfg e.event_ts) = true) :
    wmStep cfg s e = { s with late := s.late + 1 } := by
  simp [wmStep, h]

/-- Unfolding of the step on an event whose window is still open. -/
lemma wmStep_accept {cfg : WmConfig} {s : WmState} {e : WmEvent}
    (h : wmSealed cfg s.watermark (wmWindowStart cfg e.event_ts) = false) :
    wmStep cfg s e =
      { watermark := max s.watermark e.event_ts
        openB := (wmMerge s.openB e.towerId (wmWindowStart cfg e.event_ts)).filter
          (fun b => !(wmSealed cfg (max s.watermark e.event_ts) b.windowStart))
        sealedB := s.sealedB ++
          (wmMerge s.openB e.towerId (wmWindowStart cfg e.event_ts)).filter
            (fun b => wmSealed cfg (max s.watermark e.event_ts) b.windowStart)
        late := s.late } := by
  simp [wmStep, h]

/-- The post-step bucket pool is a permutation of the merged open buckets
followed by the previously sealed ones. -/
lemma wmState_perm (cfg : WmConfig) (wm : ℕ) (merged sealed : List WmBucket) :
    (merged.filter (fun b => !(wmSealed cfg wm b.windowStart)) ++
      (sealed ++ merged.filter (fun b => wmSealed cfg wm b.windowStart))).Perm
      (merged ++ sealed) := by
  have p1 : (sealed ++ merged.filter (fun b => wmSealed cfg wm b.windowStart)).Perm
      (merged.filter (fun b => wmSealed cfg wm b.windowStart) ++ sealed) :=
    List.perm_append_comm
  have p2 := List.Perm.append_left
    (merged.filter (fun b => !(wmSealed cfg wm b.windowStart))) p1
  have p3 : merged.filter (fun b => !(wmSealed cfg wm b.windowStart)) ++
        (merged.filter (fun b => wmSealed cfg wm b.windowStart) ++ sealed) =
      (merged.filter (fun b => !(wmSealed cfg wm b.windowStart)) ++
        merged.filter (fun b => wmSealed cfg wm b.windowStart)) ++ sealed :=
    (List.append_assoc _ _ _).symm
  have p4 := List.Perm.append_right sealed
    (wm_filter_perm (fun b => wmSealed cfg wm b.windowStart) merged)
  exact p2.trans (p3 ▸ p4)

/-- One step preserves the aggregator invariant. -/
lemma wmStep_inv {cfg : WmConfig} {s : WmState} (e : WmEvent) (hinv : wmInv cfg s) :
    wmInv cfg (wmStep cfg s e) := by
  rcases hinv with ⟨hnd, hsl⟩
  cases hb : wmSealed cfg s.watermark (wmWindowStart cfg e.event_ts) with
  | true => rw [wmStep_drop hb]; exact ⟨hnd, hsl⟩
  | false =>
      rw [wmStep_accept hb]
      constructor
      · have hper := (wmState_perm cfg (max s.watermark e.event_ts)
          (wmMerge s.openB e.towerId (wmWindowStart cfg e.event_ts)) s.sealedB).map wmKey
        refine hper.nodup_iff.mpr ?_
        rw [List.map_append]
        by_cases hmem : ((e.towerId : String), wmWindowStart cfg e.event_ts) ∈
            s.openB.map wmKey
        · rw [wmMerge_keys_of_mem hmem, ← List.map_append]
          exact hnd
        · rw [wmMerge_keys_of_not_mem hmem]
          have hkeysealed : ((e.towerId : String), wmWindowStart cfg e.event_ts) ∉
              s.sealedB.map wmKey := by
            intro hk
            rcases List.mem_map.mp hk with ⟨b, hbs, hkb⟩
            have hws : b.windowStart = wmWindowStart cfg e.event_ts :=
              congrArg Prod.snd hkb
            have := hsl b hbs
            rw [hws, hb] at this
            cases this
          have hper2 : ((s.openB.map wmKey ++
              [((e.towerId : String), wmWindowStart cfg e.event_ts)]) ++
              s.sealedB.map wmKey).Perm
              (((e.towerId : String), wmWindowStart cfg e.event_ts) ::
                (s.openB.map wmKey ++ s.sealedB.map wmKey)) := by
            have q1 := List.Perm.append_right (s.sealedB.map wmKey)
              (@List.perm_append_comm _ (s.openB.map wmKey)
                [((e.towerId : String), wmWindowStart cfg e.event_ts)])
            have q2 : ([((e.towerId : String), wmWindowStart cfg e.event_ts)] ++
                s.openB.map wmKey) ++ s.sealedB.map wmKey =
                ((e.towerId : String), wmWindowStart cfg e.event_ts) ::
                  (s.openB.map wmKey ++ s.sealedB.map wmKey) := by simp
            exact q2 ▸ q1
          refine hper2.nodup_iff.mpr ?_
          refine List.nodup_cons.mpr ⟨?_, ?_⟩
          · intro hk
            rcases List.mem_append.mp hk with hk | hk
            · exact hmem hk
            · exact hkeysealed hk
          · rw [← List.map_append]
            exact hnd
      · intro b hbmem
        rcases List.mem_append.mp hbmem with hold | hnew
        · exact wmSealed_mono (le_max_left _ _) (hsl b hold)
        · exact (List.mem_filter.mp hnew).2

/-- One step accounts each event either as a new bucket contribution or
as a LateArrival drop. -/
lemma wmStep_measure (cfg : WmConfig) (s : WmState) (e : WmEvent) :
    wmCount (wmStep cfg s e) + (wmStep cfg s e).late = wmCount s + s.late + 1 := by
  cases hb : wmSealed cfg s.watermark (wmWindowStart cfg e.event_ts) with
  | true =>
      rw [wmStep_drop hb]
      simp only [wmCount]
      omega
  | false =>
      rw [wmStep_accept hb]
      simp only [wmCount]
      have hper := (wmState_perm cfg (max s.watermark e.event_ts)
        (wmMerge s.openB e.towerId (wmWindowStart cfg e.event_ts)) s.sealedB).map
        (fun b => b.count)
      rw [hper.sum_eq, List.map_append, List.sum_append, wmMerge_count,
        List.map_append, List.sum_append]
      omega

/-- The invariant holds along any fold of steps. -/
lemma wmFold_inv (cfg : WmConfig) (evs : List WmEvent) :
    ∀ s, wmInv cfg s → wmInv cfg (evs.foldl (wmStep cfg) s) := by
  induction evs with
  | nil => exact fun s h => h
  | cons e evs ih => exact fun s h => ih _ (wmStep_inv e h)

/-- Contributions plus LateArrival drops account for every processed
event. -/
lemma wmFold_measure (cfg : WmConfig) (evs : List WmEvent) :
    ∀ s, wmCount (evs.foldl (wmStep cfg) s) + (evs.foldl (wmStep cfg) s).late =
      wmCount s + s.late + evs.length := by
  induction evs with
  | nil => intro s; simp
  | cons e evs ih =>
      intro s
      rw [List.foldl_cons, ih, wmStep_measure]
      simp only [List.length_cons]
      omega

/-- The run's sealed buckets have pairwise distinct keys. -/
lemma wmRun_keys_nodup (cfg : WmConfig) (evs : List WmEvent) :
    ((wmRun cfg evs).sealedB.map wmKey).Nodup := by
  have hinv := wmFold_inv cfg evs wmInit ⟨by simp [wmInit], by simp [wmInit]⟩
  have hper : (((evs.foldl (wmStep cfg) wmInit).sealedB ++
      (evs.foldl (wmStep cfg) wmInit).openB).map wmKey).Perm
      ((((evs.foldl (wmStep cfg) wmInit).openB ++
        (evs.foldl (wmStep cfg) wmInit).sealedB)).map wmKey) :=
    List.Perm.map wmKey List.perm_append_comm
  exact hper.nodup_iff.mpr hinv.1

/-- The run's sealed bucket contributions plus its LateArrival count
equal the number of input events. -/
lemma wmRun_measure (cfg : WmConfig) (evs : List WmEvent) :
    wmCount (wmRun cfg evs) + (wmRun cfg evs).late = evs.length := by
  have hm := wmFold_measure cfg evs wmInit
  have hper : (((wmRun cfg evs).openB ++ (wmRun cfg evs).sealedB).map
      (fun b => b.count)).Perm
      ((((evs.foldl (wmStep cfg) wmInit).openB ++
        (evs.foldl (wmStep cfg) wmInit).sealedB)).map (fun b => b.count)) := by
    refine List.Perm.map _ ?_
    show (([] : List WmBucket) ++ ((evs.foldl (wmStep cfg) wmInit).sealedB ++
      (evs.foldl (wmStep cfg) wmInit).openB)).Perm _
    rw [List.nil_append]
    exact List.perm_append_comm
  have hc : wmCount (wmRun cfg evs) = wmCount (evs.foldl (wmStep cfg) wmInit) := by
    rw [wmCount, wmCount, hper.sum_eq]
  have hl : (wmRun cfg evs).late = (evs.foldl (wmStep cfg) wmInit).late := rfl
  rw [hc, hl]
  simpa [wmInit, wmCount] using hm

/-- C8: (modelled watermark policy) an event still within
`allowedLateness` of the watermark is merged into its (unique) bucket,
an event whose window is sealed is dropped and counted only in the
LateArrival metric, and a full run seals each `(towerId, windowStart)`
bucket exactly once with every event accounted for either in a sealed
bucket or in the LateArrival count. -/
theorem watermark_lateness_policy :
    ∀ cfg : WmConfig, 0 < cfg.windowDuration →
      (∀ (s : WmState) (e : WmEvent), s.watermark ≤ e.event_ts + cfg.allowedLateness →
        (wmStep cfg s e).late = s.late ∧ wmCount (wmStep cfg s e) = wmCount s + 1) ∧
      (∀ (s : WmState) (e : WmEvent),
        wmSealed cfg s.watermark (wmWindowStart cfg e.event_ts) = true →
        wmStep cfg s e = { s with late := s.late + 1 }) ∧
      (∀ evs : List WmEvent,
        ((wmRun cfg evs).sealedB.map wmKey).Nodup ∧
        wmCount (wmRun cfg evs) + (wmRun cfg evs).late = evs.length) := by
  intro cfg hW
  refine ⟨?_, fun s e h => wmStep_drop h,
    fun evs => ⟨wmRun_keys_nodup cfg evs, wmRun_measure cfg evs⟩⟩
  intro s e h
  have hsf : wmSealed cfg s.watermark (wmWindowStart cfg e.event_ts) = false := by
    have h1 := Nat.div_add_mod e.event_ts cfg.windowDuration
    have h2 := Nat.mod_lt e.event_ts hW
    have h3 : (e.event_ts / cfg.windowDuration) * cfg.windowDuration =
        cfg.windowDuration * (e.event_ts / cfg.windowDuration) := Nat.mul_comm _ _
    simp only [wmSealed, decide_eq_false_iff_not, not_lt, wmWindowStart]
    omega
  have hl : (wmStep cfg s e).late = s.late := by rw [wmStep_accept hsf]
  have hm := wmStep_measure cfg s e
  exact ⟨hl, by omega⟩

/-- Witness for `watermark_lateness_policy`: a three-event run (two
events in one minute bucket, one in a later one) seals buckets with
distinct keys and accounts for all three events. -/
theorem watermark_lateness_policy_witness :
    ((wmRun ⟨60, 60⟩ [⟨"T1", 36015⟩, ⟨"T1", 36045⟩, ⟨"T2", 39700⟩]).sealedB.map
      wmKey).Nodup ∧
    wmCount (wmRun ⟨60, 60⟩ [⟨"T1", 36015⟩, ⟨"T1", 36045⟩, ⟨"T2", 39700⟩]) +
      (wmRun ⟨60, 60⟩ [⟨"T1", 36015⟩, ⟨"T1", 36045⟩, ⟨"T2", 39700⟩]).late = 3 :=
  (watermark_lateness_policy ⟨60, 60⟩ (by decide)).2.2
    [⟨"T1", 36015⟩, ⟨"T1", 36045⟩, ⟨"T2", 39700⟩]

end TelecomDb
